import Mathlib

/-!
Verification of the smart-todo application core (`src/App.tsx`): a shallow
embedding of the Response Normalizer (`ensureArray`), the Task Classifier
(`categorizeTodo`, `prioritizeTodo`) and the Task List Controller operations
(`loadTodos`, `addTodo`, `toggleTodo`, `deleteTodo`, `filteredTodos`),
together with theorems settling the specification claims about them.

JavaScript values reaching the normalizer are modelled by the inductive
`JSValue`; the external services (text generation, persistence) are modelled
by explicit outcome parameters (`Option String` for the generation response,
`Bool` for whether a store call resolves), since every operation of the
controller is a pure function of its inputs and those outcomes.
-/

namespace SmartTodo

/-- A JavaScript runtime value, as far as the normalizer can observe it:
`typeof x === 'object'` distinguishes `obj` (and `arr`, and `null`, which the
code excludes by truthiness) from the primitives, and `Array.isArray`
distinguishes `arr`. Object fields are kept in key-insertion order, matching
the iteration order of `Object.values` for string keys. -/
inductive JSValue : Type where
  | null : JSValue
  | bool (b : Bool) : JSValue
  | num (n : Int) : JSValue
  | str (s : String) : JSValue
  | arr (xs : List JSValue) : JSValue
  | obj (fields : List (String × JSValue)) : JSValue
deriving Repr, BEq

/-- Property access `o.k` on an object's field list: the value bound to the
key, if present. -/
def getProp (fields : List (String × JSValue)) (k : String) : Option JSValue :=
  (fields.find? (fun f => f.1 == k)).map Prod.snd

/-- The `for (const value of Object.values(response))` loop in `ensureArray`:
return the first array-valued entry, or the fallback `[]` if none exists. -/
def firstArrayLoop : List JSValue → List JSValue
  | [] => []
  | JSValue.arr xs :: _ => xs
  | _ :: rest => firstArrayLoop rest

/-- `ensureArray` (App.tsx lines 41-52) with its default fallback `[]`:
an array is returned unchanged; a (truthy) object yields its `data` field
when that is an array, else the first array-valued field in key order;
everything else yields the fallback. -/
def ensureArray (response : JSValue) : List JSValue :=
  match response with
  | JSValue.arr xs => xs
  | JSValue.obj fields =>
    match getProp fields "data" with
    | some (JSValue.arr xs) => xs
    | _ => firstArrayLoop (fields.map Prod.snd)
  | _ => []

/-- Extract the element list of an array value, if it is one. -/
def arrParts (v : JSValue) : Option (List JSValue) :=
  match v with
  | JSValue.arr xs => some xs
  | _ => none

/-- The Normalizer contract as the specification words it: the value itself
if it is a sequence; else, for a keyed structure, the sequence under the
conventional wrapper key `data` when that field is a sequence, otherwise the
first sequence-valued field in key-iteration order; else the empty sequence. -/
def ensureArraySpec (v : JSValue) : List JSValue :=
  match v with
  | JSValue.arr xs => xs
  | JSValue.obj fields =>
    match getProp fields "data" with
    | some (JSValue.arr xs) => xs
    | _ => (((fields.map Prod.snd).filterMap arrParts).head?).getD []
  | _ => []

/-- JavaScript `String.prototype.trim`: drop whitespace from both ends
(modelled over the character list, so that it evaluates by reduction). -/
def jsTrim (s : String) : String :=
  ⟨((s.data.dropWhile Char.isWhitespace).reverse.dropWhile Char.isWhitespace).reverse⟩

/-- JavaScript `String.prototype.toLowerCase`, on the ASCII alphabet the
source's labels are drawn from: lowercase every character. -/
def jsToLower (s : String) : String :=
  ⟨s.data.map Char.toLower⟩

/-- One entry of the static `categories` / `priorities` configuration
(the icon component is presentation-only and not modelled). -/
structure LabelDef where
  id : String
  name : String
  color : String
deriving Repr, DecidableEq

/-- The closed category configuration (App.tsx lines 25-33). -/
def categories : List LabelDef :=
  [ ⟨"work", "Work", "bg-blue-100 text-blue-800"⟩,
    ⟨"personal", "Personal", "bg-pink-100 text-pink-800"⟩,
    ⟨"health", "Health", "bg-green-100 text-green-800"⟩,
    ⟨"home", "Home", "bg-yellow-100 text-yellow-800"⟩,
    ⟨"learning", "Learning", "bg-purple-100 text-purple-800"⟩,
    ⟨"shopping", "Shopping", "bg-orange-100 text-orange-800"⟩,
    ⟨"other", "Other", "bg-gray-100 text-gray-800"⟩ ]

/-- The closed priority configuration (App.tsx lines 35-39). -/
def priorities : List LabelDef :=
  [ ⟨"low", "Low", "bg-green-100 text-green-800"⟩,
    ⟨"medium", "Medium", "bg-yellow-100 text-yellow-800"⟩,
    ⟨"high", "High", "bg-red-100 text-red-800"⟩ ]

/-- The closed set of category labels. -/
def categoryIds : List String := categories.map (fun c => c.id)

/-- The closed set of priority labels. -/
def priorityIds : List String := priorities.map (fun p => p.id)

/-- `categorizeTodo` (App.tsx lines 65-92), as a function of the outcome of
the `blink.ai.generateText` call: `none` models the call throwing (caught by
the surrounding try/catch), `some text` models a resolved `{ text }`. The
returned text is trimmed and lowercased, then validated against the closed
category set, defaulting to `"other"`. -/
def categorizeTodo (response : Option String) : String :=
  match response with
  | none => "other"
  | some text =>
    let category := jsToLower (jsTrim text)
    if (categories.find? (fun cat => cat.id == category)).isSome then category
    else "other"

/-- `prioritizeTodo` (App.tsx lines 95-118), analogously: validated against
the closed priority set, defaulting to `"medium"`. -/
def prioritizeTodo (response : Option String) : String :=
  match response with
  | none => "medium"
  | some text =>
    let priority := jsToLower (jsTrim text)
    if (priorities.find? (fun p => p.id == priority)).isSome then priority
    else "medium"

/-- The `Todo` record (App.tsx lines 13-23). `category` and `priority` are
kept as strings, as the TypeScript record is populated from loosely-typed
backend responses and classifier strings. -/
structure Todo where
  id : String
  title : String
  description : String
  category : String
  priority : String
  completed : Bool
  created_at : String
  due_date : Option String
  user_id : String
deriving Repr, DecidableEq

/-- A record delivered by the store's `list` call before validation: the
backend is untrusted, so `id` may be missing (`none`) as well as blank.
The remaining fields mirror `Todo`. -/
structure RawRecord where
  id : Option String
  title : String
  description : String
  category : String
  priority : String
  completed : Bool
  created_at : String
  due_date : Option String
  user_id : String
deriving Repr, DecidableEq

/-- JavaScript `Map.prototype.set` on an association list snapshot: an
existing key keeps its position and gets the new value; a new key is
appended. -/
def mapInsert {α : Type} (m : List (String × α)) (k : String) (v : α) :
    List (String × α) :=
  if m.any (fun p => p.1 == k) then
    m.map (fun p => if p.1 == k then (k, v) else p)
  else m ++ [(k, v)]

/-- `new Map(pairs)`: insert the pairs left to right into an empty map. -/
def buildMap {α : Type} (pairs : List (String × α)) : List (String × α) :=
  pairs.foldl (fun m p => mapInsert m p.1 p.2) []

/-- The id under which a raw record is keyed in the deduplication map
(`t.id` is a present, non-blank string for every record that survives the
validity filter). -/
def rawKey (t : RawRecord) : String := t.id.getD ""

/-- The validity filter of `loadTodos` (App.tsx line 130):
`typeof t.id === 'string' && t.id.trim() !== ''`. -/
def hasValidId (t : RawRecord) : Bool :=
  match t.id with
  | some s => !(jsTrim s == "")
  | none => false

/-- The collection computed by a successful `loadTodos` (App.tsx lines
121-140): drop records with a missing or blank id, then deduplicate by id via
`Array.from(new Map(valid.map(t => [t.id, t])).values())` — last record wins
per id, ordered by first occurrence of each id. (A failed `list` call leaves
the collection untouched and only emits an error toast.) -/
def loadTodos (records : List RawRecord) : List RawRecord :=
  let validArray := records.filter hasValidId
  (buildMap (validArray.map (fun t => (rawKey t, t)))).map Prod.snd

/-- A user-visible `react-hot-toast` notification. -/
inductive Toast : Type where
  | success (msg : String) : Toast
  | error (msg : String) : Toast
deriving Repr, DecidableEq

/-- Replace the `completed` flag of a todo, leaving every other field alone
(the spread `{ ...todo, completed }` in `toggleTodo`). -/
def setCompleted (t : Todo) (c : Bool) : Todo :=
  ⟨t.id, t.title, t.description, t.category, t.priority, c,
   t.created_at, t.due_date, t.user_id⟩

/-- Observable outcome of one `toggleTodo` call: the resulting collection,
the `blink.db.todos.update` calls issued (id and new flag), and the toasts
shown. -/
structure ToggleResult where
  todos : List Todo
  updateCalls : List (String × Bool)
  toasts : List Toast
deriving Repr, DecidableEq

/-- `toggleTodo` (App.tsx lines 197-209). `if (!id) return` guards only the
falsy string, i.e. the empty id. `persistOk` models whether the store's
`update` call resolves; on rejection the catch block leaves the collection
untouched and shows an error toast. On success the matching entry's
`completed` flag is replaced. -/
def toggleTodo (todos : List Todo) (id : String) (completed : Bool)
    (persistOk : Bool) : ToggleResult :=
  if id == "" then ⟨todos, [], []⟩
  else if persistOk then
    ⟨todos.map (fun todo => if todo.id == id then setCompleted todo completed else todo),
     [(id, completed)],
     [Toast.success (if completed then "Todo completed!" else "Todo marked as incomplete")]⟩
  else
    ⟨todos, [(id, completed)], [Toast.error "Failed to update todo"]⟩

/-- Observable outcome of one `deleteTodo` call. -/
structure DeleteResult where
  todos : List Todo
  deleteCalls : List String
  toasts : List Toast
deriving Repr, DecidableEq

/-- `deleteTodo` (App.tsx lines 212-221): always attempts the store's
`delete`; on success filters the id out of the collection, on rejection
leaves the collection untouched and shows an error toast. -/
def deleteTodo (todos : List Todo) (id : String) (persistOk : Bool) :
    DeleteResult :=
  if persistOk then
    ⟨todos.filter (fun todo => !(todo.id == id)), [id], [Toast.success "Todo deleted"]⟩
  else
    ⟨todos, [id], [Toast.error "Failed to delete todo"]⟩

/-- Observable outcome of one `addTodo` call: the collection, the two draft
form fields, the `create` calls issued, and the toasts shown. -/
structure AddResult where
  todos : List Todo
  newTodo : String
  newDescription : String
  createCalls : List Todo
  toasts : List Toast
deriving Repr, DecidableEq

/-- `addTodo` (App.tsx lines 143-194), as a function of the draft fields,
the two classifier call outcomes (the classifiers themselves never throw,
see `categorizeTodo`/`prioritizeTodo`), the generated id, the session user
id, the creation timestamp, and whether the store's `create` call resolves.
A blank (whitespace-only) trimmed title is rejected silently. On create
success the new todo is inserted at the front after filtering out any entry
with the same id (`ensureArray` on the previous collection is the identity
there, since the collection is an array), and the drafts are cleared; on
rejection the catch block leaves collection and drafts untouched and shows
an error toast. -/
def addTodo (todos : List Todo) (newTodo newDescription : String)
    (catResponse prioResponse : Option String)
    (id userId createdAt : String) (persistOk : Bool) : AddResult :=
  if jsTrim newTodo == "" then ⟨todos, newTodo, newDescription, [], []⟩
  else
    let category := categorizeTodo catResponse
    let priority := prioritizeTodo prioResponse
    let createdTodo : Todo :=
      ⟨id, newTodo, newDescription, category, priority, false, createdAt, none, userId⟩
    if persistOk then
      ⟨createdTodo :: todos.filter (fun t => !(t.id == createdTodo.id)),
       "", "", [createdTodo],
       [Toast.success ("Todo added and auto-categorized as " ++ category ++ "!")]⟩
    else
      ⟨todos, newTodo, newDescription, [createdTodo],
       [Toast.error "Failed to add todo"]⟩

/-- JavaScript `String.prototype.includes`: substring containment
(an infix of the character sequence). -/
def strIncludes (hay needle : String) : Bool :=
  decide (needle.data <:+: hay.data)

/-- `filteredTodos` (App.tsx lines 224-230): a todo is kept iff its
lowercased title or description contains the lowercased search term, and the
selected category is `"all"` or equals the todo's category. -/
def filteredTodos (todos : List Todo) (searchTerm selectedCategory : String) :
    List Todo :=
  todos.filter (fun todo =>
    (strIncludes (jsToLower todo.title) (jsToLower searchTerm) ||
     strIncludes (jsToLower todo.description) (jsToLower searchTerm)) &&
    (selectedCategory == "all" || todo.category == selectedCategory))

/-- The specification's reading of the visibility condition: the title or
description contains the search term as a case-insensitive substring
(lowercasing both sides), and the category filter passes. -/
def visibleSpec (todo : Todo) (searchTerm selectedCategory : String) : Prop :=
  ((jsToLower searchTerm).data <:+: (jsToLower todo.title).data ∨
   (jsToLower searchTerm).data <:+: (jsToLower todo.description).data) ∧
  (selectedCategory = "all" ∨ todo.category = selectedCategory)

/-! ### Helper lemmas -/

/-- The value-scan loop of `ensureArray` returns the head of the list of
array-valued entries (or `[]` when there is none). -/
theorem firstArrayLoop_eq (l : List JSValue) :
    firstArrayLoop l = ((l.filterMap arrParts).head?).getD [] := by
  induction l with
  | nil => rfl
  | cons v rest ih => cases v <;> simp [firstArrayLoop, arrParts, ih]

/-- The classifier's `find?`-based membership test agrees with membership in
the closed category label set. -/
theorem find_category_iff (s : String) :
    ((categories.find? (fun cat => cat.id == s)).isSome = true) ↔ s ∈ categoryIds := by
  simp [categoryIds, List.mem_map, List.find?_isSome]

/-- The classifier's `find?`-based membership test agrees with membership in
the closed priority label set. -/
theorem find_priority_iff (s : String) :
    ((priorities.find? (fun p => p.id == s)).isSome = true) ↔ s ∈ priorityIds := by
  simp [priorityIds, List.mem_map, List.find?_isSome]

/-- Evaluation of `categorizeTodo` on a resolved service response. -/
theorem categorizeTodo_some_eq (text : String) :
    categorizeTodo (some text) =
      if jsToLower (jsTrim text) ∈ categoryIds then jsToLower (jsTrim text) else "other" := by
  simp only [categorizeTodo]
  by_cases h : jsToLower (jsTrim text) ∈ categoryIds
  · rw [if_pos ((find_category_iff _).mpr h), if_pos h]
  · rw [if_neg (fun hc => h ((find_category_iff _).mp hc)), if_neg h]

/-- Evaluation of `prioritizeTodo` on a resolved service response. -/
theorem prioritizeTodo_some_eq (text : String) :
    prioritizeTodo (some text) =
      if jsToLower (jsTrim text) ∈ priorityIds then jsToLower (jsTrim text) else "medium" := by
  simp only [prioritizeTodo]
  by_cases h : jsToLower (jsTrim text) ∈ priorityIds
  · rw [if_pos ((find_priority_iff _).mpr h), if_pos h]
  · rw [if_neg (fun hc => h ((find_priority_iff _).mp hc)), if_neg h]

/-! ### Claim theorems -/

/-- Claim C2: for every input value, `ensureArray` returns the value itself
if it is an array; else, for an object, the array under the conventional
wrapper key `data` when that field is an array, otherwise the first
array-valued field in key-iteration order; else the empty array — and, being
a total function of the modelled value, it never raises an error for any
input shape. -/
theorem ensureArray_meets_spec (v : JSValue) : ensureArray v = ensureArraySpec v := by
  cases v with
  | obj fields =>
    simp only [ensureArray, ensureArraySpec]
    cases h : getProp fields "data" with
    | none => simp [firstArrayLoop_eq]
    | some w => cases w <;> simp [firstArrayLoop_eq]
  | null => rfl
  | bool b => rfl
  | num n => rfl
  | str s => rfl
  | arr xs => rfl

/-- Claim C3: each classifier operation returns a member of its closed enum:
the trimmed, lowercased service response when that text is in the enum, and
otherwise (service error, modelled as `none`, or text outside the enum) the
designated default — `other` for category, `medium` for priority — without
ever propagating the failure. -/
theorem classifiers_closed_enum_with_defaults (response : Option String) :
    (categorizeTodo response ∈ categoryIds ∧ prioritizeTodo response ∈ priorityIds) ∧
    (∀ text, response = some text →
      categorizeTodo response =
        (if jsToLower (jsTrim text) ∈ categoryIds then jsToLower (jsTrim text) else "other") ∧
      prioritizeTodo response =
        (if jsToLower (jsTrim text) ∈ priorityIds then jsToLower (jsTrim text) else "medium")) ∧
    (response = none →
      categorizeTodo response = "other" ∧ prioritizeTodo response = "medium") := by
  refine ⟨?_, ?_, ?_⟩
  · cases response with
    | none => exact ⟨by simp [categorizeTodo, categoryIds, categories],
                     by simp [prioritizeTodo, priorityIds, priorities]⟩
    | some text =>
      rw [categorizeTodo_some_eq, prioritizeTodo_some_eq]
      constructor
      · split
        · assumption
        · simp [categoryIds, categories]
      · split
        · assumption
        · simp [priorityIds, priorities]
  · intro text ht
    subst ht
    exact ⟨categorizeTodo_some_eq text, prioritizeTodo_some_eq text⟩
  · intro ht
    subst ht
    exact ⟨rfl, rfl⟩

/-- Witness for C3: a concrete in-enum response is kept (after trimming and
lowercasing), a concrete out-of-enum response falls back to the default. -/
theorem classifiers_closed_enum_with_defaults_witness :
    categorizeTodo (some " WORK ") = "work" ∧ prioritizeTodo (some "urgent!!") = "medium" := by
  have h1 := ((classifiers_closed_enum_with_defaults (some " WORK ")).2.1 " WORK " rfl).1
  have h2 := ((classifiers_closed_enum_with_defaults (some "urgent!!")).2.1 "urgent!!" rfl).2
  rw [h1, h2]
  constructor
  · rw [if_pos (by decide)]
    decide
  · rw [if_neg (by decide)]

/-! ### Evaluation lemmas for the controller operations -/

/-- `toggleTodo` with the empty (falsy) id returns early. -/
theorem toggleTodo_empty_eq (todos : List Todo) (c ok : Bool) :
    toggleTodo todos "" c ok = ⟨todos, [], []⟩ := rfl

/-- `toggleTodo` with a non-empty id and a resolving `update` call. -/
theorem toggleTodo_success_eq (todos : List Todo) (id : String) (c : Bool)
    (h : id ≠ "") :
    toggleTodo todos id c true =
      ⟨todos.map (fun todo => if todo.id == id then setCompleted todo c else todo),
       [(id, c)],
       [Toast.success (if c then "Todo completed!" else "Todo marked as incomplete")]⟩ := by
  have hc : ¬ ((id == "") = true) := by simp [h]
  simp only [toggleTodo]
  rw [if_neg hc]
  rfl

/-- `toggleTodo` with a non-empty id and a rejecting `update` call. -/
theorem toggleTodo_fail_eq (todos : List Todo) (id : String) (c : Bool)
    (h : id ≠ "") :
    toggleTodo todos id c false =
      ⟨todos, [(id, c)], [Toast.error "Failed to update todo"]⟩ := by
  have hc : ¬ ((id == "") = true) := by simp [h]
  simp only [toggleTodo]
  rw [if_neg hc]
  rfl

/-- `deleteTodo` with a resolving `delete` call. -/
theorem deleteTodo_success_eq (todos : List Todo) (id : String) :
    deleteTodo todos id true =
      ⟨todos.filter (fun todo => !(todo.id == id)), [id], [Toast.success "Todo deleted"]⟩ := rfl

/-- `deleteTodo` with a rejecting `delete` call. -/
theorem deleteTodo_fail_eq (todos : List Todo) (id : String) :
    deleteTodo todos id false =
      ⟨todos, [id], [Toast.error "Failed to delete todo"]⟩ := rfl

/-- `addTodo` with a blank trimmed title rejects silently. -/
theorem addTodo_blank_eq (todos : List Todo) (nT nD : String)
    (cR pR : Option String) (id uid ts : String) (ok : Bool)
    (h : jsTrim nT = "") :
    addTodo todos nT nD cR pR id uid ts ok = ⟨todos, nT, nD, [], []⟩ := by
  simp only [addTodo]
  rw [if_pos (by simp [h])]

/-- `addTodo` with a non-blank title and a resolving `create` call. -/
theorem addTodo_success_eq (todos : List Todo) (nT nD : String)
    (cR pR : Option String) (id uid ts : String)
    (h : jsTrim nT ≠ "") :
    addTodo todos nT nD cR pR id uid ts true =
      ⟨(⟨id, nT, nD, categorizeTodo cR, prioritizeTodo pR, false, ts, none, uid⟩ : Todo)
         :: todos.filter (fun t => !(t.id == id)),
       "", "",
       [⟨id, nT, nD, categorizeTodo cR, prioritizeTodo pR, false, ts, none, uid⟩],
       [Toast.success ("Todo added and auto-categorized as " ++ categorizeTodo cR ++ "!")]⟩ := by
  have hc : ¬ ((jsTrim nT == "") = true) := by simp [h]
  simp only [addTodo]
  rw [if_neg hc]
  rfl

/-- `addTodo` with a non-blank title and a rejecting `create` call. -/
theorem addTodo_fail_eq (todos : List Todo) (nT nD : String)
    (cR pR : Option String) (id uid ts : String)
    (h : jsTrim nT ≠ "") :
    addTodo todos nT nD cR pR id uid ts false =
      ⟨todos, nT, nD,
       [⟨id, nT, nD, categorizeTodo cR, prioritizeTodo pR, false, ts, none, uid⟩],
       [Toast.error "Failed to add todo"]⟩ := by
  have hc : ¬ ((jsTrim nT == "") = true) := by simp [h]
  simp only [addTodo]
  rw [if_neg hc]
  rfl

/-- Claim C4: when the Store Adapter call rejects, each of Create, Toggle
completion and Delete leaves the in-memory collection exactly as it was and
produces a user-visible failure notification. (For Toggle the adapter call
is only attempted for a non-empty id, for Create only for a non-blank
trimmed title; the hypotheses restrict to those attempts.) -/
theorem persistence_failure_preserves_state
    (todos : List Todo) (id did : String) (completed : Bool)
    (nT nD : String) (cR pR : Option String) (nid uid ts : String) :
    (id ≠ "" →
      (toggleTodo todos id completed false).todos = todos ∧
      (toggleTodo todos id completed false).toasts = [Toast.error "Failed to update todo"]) ∧
    ((deleteTodo todos did false).todos = todos ∧
      (deleteTodo todos did false).toasts = [Toast.error "Failed to delete todo"]) ∧
    (jsTrim nT ≠ "" →
      (addTodo todos nT nD cR pR nid uid ts false).todos = todos ∧
      (addTodo todos nT nD cR pR nid uid ts false).toasts = [Toast.error "Failed to add todo"]) := by
  refine ⟨fun h => ?_, ⟨rfl, rfl⟩, fun h => ?_⟩
  · rw [toggleTodo_fail_eq todos id completed h]
    exact ⟨rfl, rfl⟩
  · rw [addTodo_fail_eq todos nT nD cR pR nid uid ts h]
    exact ⟨rfl, rfl⟩

/-- Witness for C4: concrete rejecting Toggle, Delete and Create calls all
leave a concrete one-element collection unchanged and emit an error toast.
The Delete input uses an id absent from the collection (the spec's
delete-a-non-existent-id scenario). -/
theorem persistence_failure_preserves_state_witness :
    (toggleTodo [⟨"a", "t", "", "other", "low", false, "", none, "u"⟩] "a" true false).todos
        = [⟨"a", "t", "", "other", "low", false, "", none, "u"⟩] ∧
    (deleteTodo [⟨"a", "t", "", "other", "low", false, "", none, "u"⟩] "missing" false).todos
        = [⟨"a", "t", "", "other", "low", false, "", none, "u"⟩] ∧
    (deleteTodo [⟨"a", "t", "", "other", "low", false, "", none, "u"⟩] "missing" false).toasts
        = [Toast.error "Failed to delete todo"] ∧
    (addTodo [⟨"a", "t", "", "other", "low", false, "", none, "u"⟩] "Buy milk" "" none none
        "b" "u" "now" false).todos
        = [⟨"a", "t", "", "other", "low", false, "", none, "u"⟩] := by
  have h := persistence_failure_preserves_state
    [⟨"a", "t", "", "other", "low", false, "", none, "u"⟩] "a" "missing" true
    "Buy milk" "" none none "b" "u" "now"
  exact ⟨(h.1 (by decide)).1, h.2.1.1, h.2.1.2, (h.2.2 (by decide)).1⟩

/-- Claim C5: for every non-empty trimmed title, a successful Create inserts
exactly one new task at the front of the collection, after removing any
pre-existing entry with the same id; its category and priority are the two
Classifier results, its `completed` flag is `false`, its title and
description are the submitted values, and success is signalled with the
assigned category. -/
theorem create_success_inserts_front (todos : List Todo) (nT nD : String)
    (cR pR : Option String) (id uid ts : String) (h : jsTrim nT ≠ "") :
    (addTodo todos nT nD cR pR id uid ts true).todos =
      (⟨id, nT, nD, categorizeTodo cR, prioritizeTodo pR, false, ts, none, uid⟩ : Todo)
        :: todos.filter (fun t => !(t.id == id)) ∧
    (addTodo todos nT nD cR pR id uid ts true).toasts =
      [Toast.success ("Todo added and auto-categorized as " ++ categorizeTodo cR ++ "!")] := by
  rw [addTodo_success_eq todos nT nD cR pR id uid ts h]
  exact ⟨rfl, rfl⟩

/-- Witness for C5: the spec's scenario — create "Buy milk" with empty
description, classifier answers `shopping`/`low`; the new task appears first
with category `shopping`, priority `low`, `completed = false`. -/
theorem create_success_inserts_front_witness :
    (addTodo [⟨"a", "Old", "", "other", "low", false, "", none, "u"⟩] "Buy milk" ""
        (some "shopping") (some "low") "b" "u" "now" true).todos =
      [⟨"b", "Buy milk", "", "shopping", "low", false, "now", none, "u"⟩,
       ⟨"a", "Old", "", "other", "low", false, "", none, "u"⟩] := by
  have h := (create_success_inserts_front
    [⟨"a", "Old", "", "other", "low", false, "", none, "u"⟩] "Buy milk" ""
    (some "shopping") (some "low") "b" "u" "now" (by decide)).1
  rw [h]
  decide

/-- Claim C7 counterexample: the claim says Toggle is a no-op for every
blank id, whitespace-only included; but for the whitespace-only id `" "`
the code does issue a Store Adapter update call. -/
theorem toggle_blank_id_counterexample :
    (toggleTodo [] " " true true).updateCalls ≠ [] := by decide

/-- Claim C7 amended: Toggle is a no-op exactly for the empty id — the guard
`if (!id) return` only treats the falsy empty string as blank: with the
empty id no update call is issued and the collection is unchanged, while any
non-empty id (whitespace-only ids included) issues the update call. -/
theorem toggle_empty_id_noop (todos : List Todo) (completed persistOk : Bool) :
    (toggleTodo todos "" completed persistOk).updateCalls = [] ∧
    (toggleTodo todos "" completed persistOk).todos = todos ∧
    (∀ id : String, id ≠ "" →
      (toggleTodo todos id completed persistOk).updateCalls = [(id, completed)]) := by
  refine ⟨rfl, rfl, fun id h => ?_⟩
  cases persistOk with
  | true => rw [toggleTodo_success_eq todos id completed h]
  | false => rw [toggleTodo_fail_eq todos id completed h]

/-- Witness for C7's amended claim: the empty id issues no call, the
whitespace-only id issues one. -/
theorem toggle_empty_id_noop_witness :
    (toggleTodo [] "" true true).updateCalls = [] ∧
    (toggleTodo [] " " true true).updateCalls = [(" ", true)] :=
  ⟨(toggle_empty_id_noop [] true true).1,
   (toggle_empty_id_noop [] true true).2.2 " " (by decide)⟩

/-- Claim C10: the draft title and description are cleared exactly when
Create succeeds; when the Store Adapter `create` call rejects, both drafts
retain their submitted values. -/
theorem create_drafts_cleared_iff_success (todos : List Todo) (nT nD : String)
    (cR pR : Option String) (id uid ts : String) (persistOk : Bool)
    (h : jsTrim nT ≠ "") :
    (((addTodo todos nT nD cR pR id uid ts persistOk).newTodo = "" ∧
      (addTodo todos nT nD cR pR id uid ts persistOk).newDescription = "") ↔
        persistOk = true) ∧
    (persistOk = false →
      (addTodo todos nT nD cR pR id uid ts persistOk).newTodo = nT ∧
      (addTodo todos nT nD cR pR id uid ts persistOk).newDescription = nD) := by
  have hne : nT ≠ "" := by
    intro e
    exact h (by rw [e]; rfl)
  cases persistOk with
  | true =>
    rw [addTodo_success_eq todos nT nD cR pR id uid ts h]
    exact ⟨by simp, by simp⟩
  | false =>
    rw [addTodo_fail_eq todos nT nD cR pR id uid ts h]
    refine ⟨?_, fun _ => ⟨rfl, rfl⟩⟩
    constructor
    · rintro ⟨e, _⟩
      exact absurd e hne
    · intro e
      cases e

/-- Witness for C10: a concrete failing create keeps the drafts, a concrete
succeeding one clears them. -/
theorem create_drafts_cleared_iff_success_witness :
    ((addTodo [] "Buy milk" "desc" none none "b" "u" "now" false).newTodo = "Buy milk" ∧
     (addTodo [] "Buy milk" "desc" none none "b" "u" "now" false).newDescription = "desc") ∧
    (addTodo [] "Buy milk" "desc" none none "b" "u" "now" true).newTodo = "" := by
  have hf := create_drafts_cleared_iff_success [] "Buy milk" "desc" none none "b" "u" "now" false
    (by decide)
  have ht := create_drafts_cleared_iff_success [] "Buy milk" "desc" none none "b" "u" "now" true
    (by decide)
  exact ⟨hf.2 rfl, ((ht.1.mpr rfl)).1⟩

/-- Claim C6: a task of the collection is in the filtered view if and only
if its title or its description contains the search term as a
case-insensitive substring, and the selected category is `"all"` or equals
the task's category. -/
theorem filteredTodos_visibility (todos : List Todo)
    (searchTerm selectedCategory : String) (t : Todo) (ht : t ∈ todos) :
    t ∈ filteredTodos todos searchTerm selectedCategory ↔
      visibleSpec t searchTerm selectedCategory := by
  simp [filteredTodos, visibleSpec, strIncludes, List.mem_filter, ht]

/-- Witness for C6: the spec's scenario — search term `"milk"` with category
filter `"all"` matches a task whose description contains `"Milk"` but whose
title does not. -/
theorem filteredTodos_visibility_witness :
    (⟨"a", "Groceries", "Get Milk today", "shopping", "low", false, "", none, "u"⟩ : Todo) ∈
      filteredTodos [⟨"a", "Groceries", "Get Milk today", "shopping", "low", false, "", none, "u"⟩]
        "milk" "all" := by
  refine (filteredTodos_visibility _ "milk" "all" _ (by simp)).mpr ?_
  refine ⟨Or.inr ?_, Or.inl rfl⟩
  decide

/-- Claim C9: a successful Toggle completion changes only the `completed`
field of the tasks whose id matches: length and order of the collection are
preserved, every other task is unchanged, and every other field of a
matching task is unchanged. -/
theorem toggle_success_frame (todos : List Todo) (id : String) (c : Bool)
    (h : id ≠ "") :
    (toggleTodo todos id c true).todos.length = todos.length ∧
    List.Forall₂ (fun old cur =>
        cur.id = old.id ∧ cur.title = old.title ∧ cur.description = old.description ∧
        cur.category = old.category ∧ cur.priority = old.priority ∧
        cur.created_at = old.created_at ∧ cur.due_date = old.due_date ∧
        cur.user_id = old.user_id ∧
        cur.completed = (if old.id = id then c else old.completed))
      todos (toggleTodo todos id c true).todos := by
  rw [toggleTodo_success_eq todos id c h]
  constructor
  · simp
  · show List.Forall₂ _ todos (todos.map _)
    induction todos with
    | nil => exact List.Forall₂.nil
    | cons t rest ih =>
      simp only [List.map_cons]
      refine List.Forall₂.cons ?_ ih
      by_cases hc : t.id = id
      · simp [hc, setCompleted]
      · simp [hc, setCompleted]

/-- Witness for C9: a concrete successful toggle flips only the matching
task's flag and leaves the other task alone. -/
theorem toggle_success_frame_witness :
    (toggleTodo [⟨"a", "t1", "", "other", "low", false, "", none, "u"⟩,
                 ⟨"b", "t2", "", "work", "high", false, "", none, "u"⟩] "a" true true).todos.length
      = 2 ∧
    List.Forall₂ (fun (old cur : Todo) =>
        cur.id = old.id ∧ cur.title = old.title ∧ cur.description = old.description ∧
        cur.category = old.category ∧ cur.priority = old.priority ∧
        cur.created_at = old.created_at ∧ cur.due_date = old.due_date ∧
        cur.user_id = old.user_id ∧
        cur.completed = (if old.id = "a" then true else old.completed))
      [⟨"a", "t1", "", "other", "low", false, "", none, "u"⟩,
       ⟨"b", "t2", "", "work", "high", false, "", none, "u"⟩]
      (toggleTodo [⟨"a", "t1", "", "other", "low", false, "", none, "u"⟩,
                   ⟨"b", "t2", "", "work", "high", false, "", none, "u"⟩] "a" true true).todos :=
  ⟨(toggle_success_frame _ "a" true (by decide)).1,
   (toggle_success_frame _ "a" true (by decide)).2⟩

/-- Claim C8: for a task present in the collection (with its invariantly
non-empty id, and with the collection's ids deduplicated, which the
Controller maintains), toggling its completion twice — first to the negated
state, then back — with both persistence calls succeeding returns the whole
collection (in particular that task's `completed` flag) to its original
value and issues exactly two Store Adapter update calls. -/
theorem toggle_twice_roundtrip (todos : List Todo) (t : Todo)
    (hmem : t ∈ todos) (hid : t.id ≠ "")
    (hnodup : (todos.map Todo.id).Nodup) :
    (toggleTodo (toggleTodo todos t.id (!t.completed) true).todos t.id t.completed true).todos
      = todos ∧
    (toggleTodo todos t.id (!t.completed) true).updateCalls.length +
      (toggleTodo (toggleTodo todos t.id (!t.completed) true).todos
        t.id t.completed true).updateCalls.length = 2 := by
  rw [toggleTodo_success_eq todos t.id (!t.completed) hid,
      toggleTodo_success_eq _ t.id t.completed hid]
  constructor
  · show (todos.map
        (fun todo => if todo.id == t.id then setCompleted todo (!t.completed) else todo)).map
        (fun todo => if todo.id == t.id then setCompleted todo t.completed else todo) = todos
    rw [List.map_map]
    have hstep : ∀ u ∈ todos,
        ((fun todo => if todo.id == t.id then setCompleted todo t.completed else todo) ∘
         (fun todo => if todo.id == t.id then setCompleted todo (!t.completed) else todo)) u
          = u := by
      intro u hu
      by_cases hc : u.id = t.id
      · have hut : u = t := List.inj_on_of_nodup_map hnodup hu hmem hc
        subst hut
        simp [setCompleted]
      · simp [Function.comp, hc]
    rw [List.map_congr_left hstep]
    simp
  · rfl

/-- Witness for C8: a concrete double toggle on a two-element collection
restores it and issues one update call per toggle. -/
theorem toggle_twice_roundtrip_witness :
    (toggleTodo (toggleTodo [⟨"a", "t1", "", "other", "low", false, "", none, "u"⟩,
                             ⟨"b", "t2", "", "work", "high", true, "", none, "u"⟩]
        "a" true true).todos "a" false true).todos
      = [⟨"a", "t1", "", "other", "low", false, "", none, "u"⟩,
         ⟨"b", "t2", "", "work", "high", true, "", none, "u"⟩] :=
  (toggle_twice_roundtrip
    [⟨"a", "t1", "", "other", "low", false, "", none, "u"⟩,
     ⟨"b", "t2", "", "work", "high", true, "", none, "u"⟩]
    ⟨"a", "t1", "", "other", "low", false, "", none, "u"⟩
    (by simp) (by decide) (by decide)).1

/-! ### Deduplication-map lemmas for Load -/

/-- Inserting an already-present key leaves the key sequence unchanged. -/
theorem mapInsert_keys_of_mem {α : Type} (m : List (String × α)) (k : String) (v : α)
    (h : m.any (fun p => p.1 == k) = true) :
    (mapInsert m k v).map Prod.fst = m.map Prod.fst := by
  simp only [mapInsert, if_pos h]
  rw [List.map_map]
  refine List.map_congr_left ?_
  intro p hp
  by_cases hc : p.1 = k
  · simp [Function.comp, hc]
  · simp [Function.comp, hc]

/-- Inserting a fresh key appends it to the key sequence. -/
theorem mapInsert_keys_of_not_mem {α : Type} (m : List (String × α)) (k : String) (v : α)
    (h : m.any (fun p => p.1 == k) = false) :
    (mapInsert m k v).map Prod.fst = m.map Prod.fst ++ [k] := by
  simp only [mapInsert]
  rw [if_neg (by simp [h])]
  simp

/-- Key membership after an insertion. -/
theorem mem_keys_mapInsert {α : Type} (m : List (String × α)) (k : String) (v : α)
    (k' : String) :
    k' ∈ (mapInsert m k v).map Prod.fst ↔ k' ∈ m.map Prod.fst ∨ k' = k := by
  cases h : m.any (fun p => p.1 == k) with
  | true =>
    rw [mapInsert_keys_of_mem m k v h]
    constructor
    · exact Or.inl
    · rintro (hm | rfl)
      · exact hm
      · rcases List.any_eq_true.mp h with ⟨p, hp, he⟩
        exact List.mem_map.mpr ⟨p, hp, by simpa using he⟩
  | false =>
    rw [mapInsert_keys_of_not_mem m k v h]
    simp

/-- An insertion preserves deduplication of the key sequence. -/
theorem nodup_keys_mapInsert {α : Type} (m : List (String × α)) (k : String) (v : α)
    (h : (m.map Prod.fst).Nodup) :
    ((mapInsert m k v).map Prod.fst).Nodup := by
  cases hm : m.any (fun p => p.1 == k) with
  | true => rw [mapInsert_keys_of_mem m k v hm]; exact h
  | false =>
    rw [mapInsert_keys_of_not_mem m k v hm]
    have hk : k ∉ m.map Prod.fst := by
      intro hmem
      rcases List.mem_map.mp hmem with ⟨p, hp, he⟩
      have hany : m.any (fun p => p.1 == k) = true :=
        List.any_eq_true.mpr ⟨p, hp, by simp [he]⟩
      rw [hm] at hany
      cases hany
    simp [List.nodup_append, h, hk]

/-- Every stored pair either predates the insertion or is the inserted one. -/
theorem mem_mapInsert {α : Type} (m : List (String × α)) (k : String) (v : α)
    (p : String × α) (hp : p ∈ mapInsert m k v) :
    p ∈ m ∨ p = (k, v) := by
  by_cases h : m.any (fun q => q.1 == k) = true
  · simp only [mapInsert, if_pos h] at hp
    rcases List.mem_map.mp hp with ⟨q, hq, he⟩
    by_cases hc : q.1 = k
    · right
      rw [← he]
      simp [hc]
    · left
      rw [← he]
      simpa [hc] using hq
  · simp only [mapInsert, if_neg h] at hp
    rcases List.mem_append.mp hp with h' | h'
    · exact Or.inl h'
    · right
      simpa using h'

/-- Folding insertions over an accumulator with deduplicated keys: the keys
stay deduplicated, key membership is the union of accumulator and input
keys, and every stored pair comes from the accumulator or the input. -/
theorem foldMap_invariant {α : Type} (l : List (String × α)) :
    ∀ m : List (String × α), (m.map Prod.fst).Nodup →
      ((l.foldl (fun acc p => mapInsert acc p.1 p.2) m).map Prod.fst).Nodup ∧
      (∀ k, k ∈ (l.foldl (fun acc p => mapInsert acc p.1 p.2) m).map Prod.fst ↔
        k ∈ m.map Prod.fst ∨ k ∈ l.map Prod.fst) ∧
      (∀ p, p ∈ l.foldl (fun acc p => mapInsert acc p.1 p.2) m → p ∈ m ∨ p ∈ l) := by
  induction l with
  | nil =>
    intro m hm
    exact ⟨hm, fun k => by simp, fun p hp => Or.inl hp⟩
  | cons q rest ih =>
    intro m hm
    have h1 : ((mapInsert m q.1 q.2).map Prod.fst).Nodup := nodup_keys_mapInsert m q.1 q.2 hm
    obtain ⟨ha, hb, hc⟩ := ih (mapInsert m q.1 q.2) h1
    refine ⟨by simpa using ha, ?_, ?_⟩
    · intro k
      have hfold : (q :: rest).foldl (fun acc p => mapInsert acc p.1 p.2) m
          = rest.foldl (fun acc p => mapInsert acc p.1 p.2) (mapInsert m q.1 q.2) := rfl
      rw [hfold, hb k, mem_keys_mapInsert]
      simp only [List.map_cons, List.mem_cons]
      tauto
    · intro p hp
      rcases hc p (by simpa using hp) with h' | h'
      · rcases mem_mapInsert m q.1 q.2 p h' with h'' | h''
        · exact Or.inl h''
        · right
          rw [h'']
          exact List.mem_cons_self _ _
      · exact Or.inr (List.mem_cons_of_mem q h')

/-- A record surviving the Load validity filter has a present, non-blank id,
which is also its deduplication key. -/
theorem valid_record_id (records : List RawRecord) :
    ∀ t ∈ records.filter hasValidId,
      ∃ s, t.id = some s ∧ jsTrim s ≠ "" ∧ rawKey t = s := by
  intro t ht
  have h2 := (List.mem_filter.mp ht).2
  cases hcase : t.id with
  | none => simp [hasValidId, hcase] at h2
  | some s =>
    refine ⟨s, rfl, ?_, by simp [rawKey, hcase]⟩
    simp [hasValidId, hcase] at h2
    exact h2

/-- Claim C1: for every sequence of records delivered by the store's list
operation (duplicate ids and missing or whitespace-only ids included), the
collection after a successful Load carries deduplicated ids, every entry has
a present non-blank id, and the surviving ids are exactly the distinct
non-blank ids of the input; and the insertion performed by Create preserves
uniqueness of id in the in-memory collection. -/
theorem load_and_create_dedup (records : List RawRecord) :
    ((loadTodos records).map (fun r => r.id)).Nodup ∧
    (∀ r ∈ loadTodos records, ∃ s, r.id = some s ∧ jsTrim s ≠ "") ∧
    (∀ s : String,
      ((∃ r ∈ loadTodos records, r.id = some s) ↔
        (jsTrim s ≠ "" ∧ ∃ t ∈ records, t.id = some s))) ∧
    (∀ (todos : List Todo) (nT nD : String) (cR pR : Option String)
        (tid uid ts : String) (ok : Bool),
      (todos.map Todo.id).Nodup →
      (((addTodo todos nT nD cR pR tid uid ts ok).todos).map Todo.id).Nodup) := by
  have hvalid_id := valid_record_id records
  set pairs := (records.filter hasValidId).map (fun t => (rawKey t, t)) with hpairs
  have hinv := foldMap_invariant pairs [] (by simp)
  have hload : loadTodos records
      = (pairs.foldl (fun acc p => mapInsert acc p.1 p.2) []).map Prod.snd := rfl
  have hmem_pairs : ∀ p ∈ pairs.foldl (fun acc p => mapInsert acc p.1 p.2) [], p ∈ pairs := by
    intro p hp
    rcases hinv.2.2 p hp with h | h
    · exact absurd h (List.not_mem_nil p)
    · exact h
  have hshape : ∀ p ∈ pairs, p.2 ∈ records.filter hasValidId ∧ p.1 = rawKey p.2 := by
    intro p hp
    rcases List.mem_map.mp hp with ⟨t, ht, he⟩
    rw [← he]
    exact ⟨ht, rfl⟩
  have hid_eq : ∀ p ∈ pairs.foldl (fun acc p => mapInsert acc p.1 p.2) [],
      p.2.id = some p.1 := by
    intro p hp
    obtain ⟨hmemv, hkey⟩ := hshape p (hmem_pairs p hp)
    obtain ⟨s, hs, _, hrk⟩ := hvalid_id p.2 hmemv
    rw [hs, hkey, hrk]
  refine ⟨?_, ?_, ?_, ?_⟩
  · rw [hload, List.map_map]
    have hmaps : (pairs.foldl (fun acc p => mapInsert acc p.1 p.2) []).map
          ((fun r => r.id) ∘ Prod.snd)
        = ((pairs.foldl (fun acc p => mapInsert acc p.1 p.2) []).map Prod.fst).map some := by
      rw [List.map_map]
      exact List.map_congr_left (fun p hp => by simpa [Function.comp] using hid_eq p hp)
    rw [hmaps]
    exact hinv.1.map (Option.some_injective _)
  · intro r hr
    rw [hload] at hr
    rcases List.mem_map.mp hr with ⟨p, hp, he⟩
    obtain ⟨hmemv, _⟩ := hshape p (hmem_pairs p hp)
    obtain ⟨s, hs, hsne, _⟩ := hvalid_id p.2 hmemv
    exact ⟨s, by rw [← he]; exact hs, hsne⟩
  · intro s
    constructor
    · rintro ⟨r, hr, hid⟩
      rw [hload] at hr
      rcases List.mem_map.mp hr with ⟨p, hp, he⟩
      obtain ⟨hmemv, _⟩ := hshape p (hmem_pairs p hp)
      rw [he] at hmemv
      obtain ⟨s', hs', hne', _⟩ := hvalid_id r hmemv
      have hss : s' = s := by
        rw [hid] at hs'
        exact (Option.some.inj hs').symm
      subst hss
      exact ⟨hne', r, (List.mem_filter.mp hmemv).1, hid⟩
    · rintro ⟨hne, t, ht, hid⟩
      have htv : t ∈ records.filter hasValidId := by
        refine List.mem_filter.mpr ⟨ht, ?_⟩
        simp [hasValidId, hid, hne]
      have hkey : rawKey t = s := by simp [rawKey, hid]
      have hpair : (s, t) ∈ pairs := List.mem_map.mpr ⟨t, htv, by rw [hkey]⟩
      have hkeymem : s ∈ (pairs.foldl (fun acc p => mapInsert acc p.1 p.2) []).map Prod.fst := by
        apply (hinv.2.1 s).mpr
        right
        exact List.mem_map.mpr ⟨(s, t), hpair, rfl⟩
      rcases List.mem_map.mp hkeymem with ⟨p, hp, hpfst⟩
      refine ⟨p.2, ?_, ?_⟩
      · rw [hload]
        exact List.mem_map.mpr ⟨p, hp, rfl⟩
      · rw [hid_eq p hp, hpfst]
  · intro todos nT nD cR pR tid uid ts ok hnodup
    by_cases hb : jsTrim nT = ""
    · rw [addTodo_blank_eq todos nT nD cR pR tid uid ts ok hb]
      exact hnodup
    · cases ok with
      | false =>
        rw [addTodo_fail_eq todos nT nD cR pR tid uid ts hb]
        exact hnodup
      | true =>
        rw [addTodo_success_eq todos nT nD cR pR tid uid ts hb]
        simp only [List.map_cons]
        rw [List.nodup_cons]
        constructor
        · intro hmem
          rcases List.mem_map.mp hmem with ⟨u, hu, he⟩
          have hne := (List.mem_filter.mp hu).2
          rw [he] at hne
          simp at hne
        · exact List.Nodup.sublist (List.Sublist.map Todo.id (List.filter_sublist todos)) hnodup

/-- Witness for C1: loading a concrete sequence with a duplicate id, a
missing id and a whitespace-only id yields deduplicated ids, and a concrete
Create on a deduplicated collection keeps ids deduplicated. -/
theorem load_and_create_dedup_witness :
    ((loadTodos
        [⟨some "a", "first", "", "", "", false, "", none, "u"⟩,
         ⟨none, "no id", "", "", "", false, "", none, "u"⟩,
         ⟨some "  ", "blank id", "", "", "", false, "", none, "u"⟩,
         ⟨some "b", "other", "", "", "", false, "", none, "u"⟩,
         ⟨some "a", "second", "", "", "", false, "", none, "u"⟩]).map (fun r => r.id)).Nodup ∧
    (((addTodo [⟨"a", "Old", "", "other", "low", false, "", none, "u"⟩]
        "Buy milk" "" none none "a" "u" "now" true).todos).map Todo.id).Nodup :=
  ⟨(load_and_create_dedup
      [⟨some "a", "first", "", "", "", false, "", none, "u"⟩,
       ⟨none, "no id", "", "", "", false, "", none, "u"⟩,
       ⟨some "  ", "blank id", "", "", "", false, "", none, "u"⟩,
       ⟨some "b", "other", "", "", "", false, "", none, "u"⟩,
       ⟨some "a", "second", "", "", "", false, "", none, "u"⟩]).1,
   (load_and_create_dedup []).2.2.2
     [⟨"a", "Old", "", "other", "low", false, "", none, "u"⟩]
     "Buy milk" "" none none "a" "u" "now" true (by decide)⟩

end SmartTodo
